/-
Verification of the capture-and-curation pipeline of recording.py
(Piper GPL Training Recorder).

The Python source is shallowly embedded: the metadata ledger is a list of
(filename, prompt text) pairs, the cursor is a natural number, audio sample
sequences are lists of real numbers (the float arrays of the source), and
the stateful GUI methods become pure functions from the state they read to
the state they write plus the filesystem effects they perform (returned
explicitly as Option values, where none means the corresponding file was
not written).  Collaborator behaviour that the code only observes (does the wav
file exist, did os.remove raise, did the sound device deliver blocks, did
the save raise) is passed in as parameters.
-/
import Mathlib

namespace Recording

/-- SAMPLE_RATE = 22050 (recording.py, Configuration block). -/
def SAMPLE_RATE : ℕ := 22050

/-- LEVEL_THRESHOLD_LOW = 0.02. -/
noncomputable def LEVEL_THRESHOLD_LOW : ℝ := 0.02

/-- LEVEL_THRESHOLD_HIGH = 0.9. -/
noncomputable def LEVEL_THRESHOLD_HIGH : ℝ := 0.9

/-- TARGET_RMS = 0.15 (target RMS for normalization). -/
noncomputable def TARGET_RMS : ℝ := 0.15

/-- SILENCE_THRESHOLD = 0.01 (threshold for silence detection). -/
noncomputable def SILENCE_THRESHOLD : ℝ := 0.01

/-- SILENCE_DURATION = 0.1 (seconds of silence to trim).  Kept rational so
that the frame count int(duration * sample_rate) stays computable. -/
def SILENCE_DURATION : ℚ := 1 / 10

/-- The deterministic recording filename for a 0-based prompt index:
the source computes f-string 03d zero padding of (idx + 1) and appends
".wav" (RecorderApp.is_recorded and RecorderApp.stop_recording). -/
def filename (idx : ℕ) : String :=
  let s := toString (idx + 1)
  String.mk (List.replicate (3 - s.length) '0') ++ s ++ ".wav"

/-- RecorderApp.save_metadata, in-memory effect: the source does
self.metadata.append([filename, sentence]) - an unconditional append. -/
def save_metadata (metadata : List (String × String)) (fn sentence : String) :
    List (String × String) :=
  metadata ++ [(fn, sentence)]

/-- Order used to persist the ledger: Python sorted(key = first component),
i.e. compare rows by filename. -/
def ledgerLE (a b : String × String) : Prop := a.1 ≤ b.1

instance : DecidableRel ledgerLE :=
  fun a b => inferInstanceAs (Decidable (a.1 ≤ b.1))

instance : IsTotal (String × String) ledgerLE :=
  ⟨fun a b => le_total a.1 b.1⟩

instance : IsTrans (String × String) ledgerLE :=
  ⟨fun _ _ _ hab hbc => le_trans hab hbc⟩

/-- The stable sort by filename applied before every rewrite of
metadata.csv (Python sorted(self.metadata, key=lambda x: x[0]); insertion
sort is stable in the same way). -/
def sortLedger (md : List (String × String)) : List (String × String) :=
  List.insertionSort ledgerLE md

/-- The lines written to metadata.csv: one "filename|sentence" line per row,
rows sorted ascending by filename (RecorderApp.save_metadata and
ReviewWindow.delete_audio share this rewrite). -/
def persistLines (md : List (String × String)) : List String :=
  (sortLedger md).map (fun e => e.1 ++ "|" ++ e.2)

/-- RecorderApp.is_recorded: filename in [entry[0] for entry in metadata]. -/
def is_recorded (md : List (String × String)) (idx : ℕ) : Bool :=
  (md.map Prod.fst).contains (filename idx)

/-- One step of the while loop of skip_to_next_unrecorded, with the loop
bound "index < len(sentences)" carried as fuel = len - index: the loop can
run at most that many times, and fuel = 0 exactly when index >= len. -/
def skipFrom (md : List (String × String)) : ℕ → ℕ → ℕ
  | 0, i => i
  | fuel + 1, i => if is_recorded md i then skipFrom md fuel (i + 1) else i

/-- RecorderApp.skip_to_next_unrecorded: while index < n and
is_recorded(index): index += 1. -/
def skip_to_next_unrecorded (n : ℕ) (md : List (String × String)) (i : ℕ) : ℕ :=
  skipFrom md (n - i) i

/-- The fields of RecorderApp that the pipeline reads and writes:
the fixed prompt list, the cursor, and the in-memory ledger. -/
structure AppState where
  sentences : List String
  index : ℕ
  metadata : List (String × String)
  deriving DecidableEq

/-- RecorderApp.next_sentence: index += 1 then skip_to_next_unrecorded. -/
def next_sentence (s : AppState) : AppState :=
  { s with index := skip_to_next_unrecorded s.sentences.length s.metadata (s.index + 1) }

/-- RecorderApp.previous_sentence: if index > 0: index -= 1. -/
def previous_sentence (s : AppState) : AppState :=
  if 0 < s.index then { s with index := s.index - 1 } else s

/-- RecorderApp.skip_sentence simply calls next_sentence. -/
def skip_sentence (s : AppState) : AppState := next_sentence s

/-- The recorded_count recomputed by update_sentence_display:
sum(1 for i in range(len(sentences)) if is_recorded(i)). -/
def recordedCount (s : AppState) : ℕ :=
  ((List.range s.sentences.length).filter (fun i => is_recorded s.metadata i)).length

/-- ReviewWindow state: the snapshot copy of the ledger taken at open time
(self.metadata = app.metadata.copy()) and the review cursor. -/
structure ReviewState where
  metadata : List (String × String)
  index : ℕ
  deriving DecidableEq

/-- ReviewWindow.__init__: snapshot the app ledger, cursor 0. -/
def openReview (app : AppState) : ReviewState :=
  ⟨app.metadata, 0⟩

/-- What ReviewWindow.play_audio does, as observed by the caller. -/
inductive PlayOutcome
  | played
  | errorShown
  | noOp
  deriving DecidableEq

/-- ReviewWindow.play_audio: when the index is in range and the backing file
exists, read and play it (an exception from read/play shows an error box);
when the file is absent or the index is out of range, fall through with no
action at all.  The review snapshot is never modified. -/
def play_audio (rs : ReviewState) (fileExists playRaises : Bool) :
    ReviewState × PlayOutcome :=
  if rs.index < rs.metadata.length then
    if fileExists then
      if playRaises then (rs, .errorShown) else (rs, .played)
    else (rs, .noOp)
  else (rs, .noOp)

/-- ReviewWindow.delete_audio: on a confirmed delete of an in-range entry,
remove the file first (if it exists; an exception from os.remove aborts the
whole operation), then pop the row from the snapshot, push the snapshot into
app.metadata, rewrite metadata.csv sorted, and pull the review cursor back
when it fell off the end.  The third component is the metadata.csv write
performed (none = the file was not rewritten). -/
def delete_audio (app : AppState) (rs : ReviewState)
    (confirmed fileExists removeRaises : Bool) :
    AppState × ReviewState × Option (List String) :=
  if rs.index < rs.metadata.length then
    if confirmed then
      if fileExists && removeRaises then (app, rs, none)
      else
        let md := rs.metadata.eraseIdx rs.index
        let newIdx := if md.length ≤ rs.index ∧ 0 < rs.index then rs.index - 1 else rs.index
        ({ app with metadata := md }, ⟨md, newIdx⟩, some (persistLines md))
    else (app, rs, none)
  else (app, rs, none)

/-- ReviewWindow.close_window: calls app.update_sentence_display (which
recomputes the displayed recorded count from app.metadata but mutates no
store field) and destroys the window.  The second component is the refreshed
recorded count of the view; the store state itself is returned unchanged. -/
def close_window (app : AppState) : AppState × ℕ :=
  (app, recordedCount app)

/-- mean(audio ** 2): the mean of the squared samples.  On the empty list
this is 0/0 = 0 in Lean; numpy instead produces NaN there, so the embedding
is only used (and the theorems only speak) about captures that contain at
least one sample. -/
noncomputable def meanSq (l : List ℝ) : ℝ :=
  (l.map (fun x => x ^ 2)).sum / l.length

/-- np.sqrt(np.mean(audio ** 2)): the RMS level the source computes both in
stop_recording and in normalize_audio. -/
noncomputable def measRMS (l : List ℝ) : ℝ :=
  Real.sqrt (meanSq l)

/-- np.max(np.abs(audio)) for the lists reached by the source (nonempty);
folding max over the absolute values with base 0 agrees with it there
because every absolute value is nonnegative. -/
noncomputable def peakAmp (l : List ℝ) : ℝ :=
  (l.map (fun x => |x|)).foldr max 0

/-- normalize_audio(audio, target_rms): if the current RMS is positive,
scale by target_rms / rms, then rescale by 0.95 / peak when the scaled peak
exceeds 0.95; otherwise return the input unchanged. -/
noncomputable def normalize_audio (audio : List ℝ) (target_rms : ℝ) : List ℝ :=
  let current_rms := measRMS audio
  if current_rms > 0 then
    let scaled := audio.map (fun x => x * (target_rms / current_rms))
    let max_val := peakAmp scaled
    if max_val > 0.95 then scaled.map (fun x => x * (0.95 / max_val)) else scaled
  else audio

/-- np.convolve(a, np.ones(w)/w, mode same): entry i of the result is the
mean of the window of a centred at i, the full convolution index being
j = i + (w-1)/2 and the window the indices of a in [max 0 (j-(w-1)), min
(len-1) j] (truncated ℕ subtraction realises the clamp at 0). -/
noncomputable def movingAvgSame (a : List ℝ) (w : ℕ) : List ℝ :=
  (List.range a.length).map fun i =>
    let j := i + (w - 1) / 2
    let lo := j + 1 - w
    let hi := min (a.length - 1) j
    (((List.range (hi + 1 - lo)).map fun k => a.getD (lo + k) 0).sum) / w

/-- The smoothed absolute amplitude of trim_silence: abs of the samples,
convolved with a moving-average window of size min(512, len/10) when that
window exceeds 1, otherwise left as is. -/
noncomputable def smoothedAmp (audio : List ℝ) : List ℝ :=
  let abs_audio := audio.map (fun x => |x|)
  let window := min 512 (audio.length / 10)
  if window > 1 then movingAvgSame abs_audio window else abs_audio

/-- int(0.05 * sample_rate): the 50 ms pre-roll / pad in frames (float
truncation agrees with ℕ division by 20 at the configured rate). -/
def preRoll (sample_rate : ℕ) : ℕ := sample_rate / 20

/-- The index found by the forward scan of trim_silence: the first index
whose smoothed value strictly exceeds the threshold. -/
noncomputable def firstIdxGT (threshold : ℝ) : List ℝ → Option ℕ
  | [] => none
  | x :: xs => if threshold < x then some 0 else (firstIdxGT threshold xs).map (· + 1)

/-- The index found by the backward scan of trim_silence: the last index
whose smoothed value strictly exceeds the threshold. -/
noncomputable def lastIdxGT (threshold : ℝ) (l : List ℝ) : Option ℕ :=
  (firstIdxGT threshold l.reverse).map (fun i => l.length - 1 - i)

/-- start_idx of trim_silence: first exceedance minus the 50 ms pre-roll,
clamped at 0 (ℕ subtraction); 0 when the scan never breaks. -/
noncomputable def startIdx (audio : List ℝ) (sample_rate : ℕ) (threshold : ℝ) : ℕ :=
  match firstIdxGT threshold (smoothedAmp audio) with
  | some i => i - preRoll sample_rate
  | none => 0

/-- end_idx of trim_silence: last exceedance plus the 50 ms pad, clamped at
len(smoothed); len(smoothed) when the scan never breaks. -/
noncomputable def endIdx (audio : List ℝ) (sample_rate : ℕ) (threshold : ℝ) : ℕ :=
  match lastIdxGT threshold (smoothedAmp audio) with
  | some i => min (smoothedAmp audio).length (i + preRoll sample_rate)
  | none => (smoothedAmp audio).length

/-- min_frames = int(duration * sample_rate). -/
def minFrames (duration : ℚ) (sample_rate : ℕ) : ℕ :=
  (duration * sample_rate).floor.toNat

/-- trim_silence(audio, sample_rate, threshold, duration): cut the buffer to
[start_idx, end_idx) unless that span is shorter than min_frames, in which
case the input is returned unchanged. -/
noncomputable def trim_silence (audio : List ℝ) (sample_rate : ℕ)
    (threshold : ℝ) (duration : ℚ) : List ℝ :=
  let s := startIdx audio sample_rate threshold
  let e := endIdx audio sample_rate threshold
  if e - s < minFrames duration sample_rate then audio
  else (audio.drop s).take (e - s)

/-- The outcome of RecorderApp.stop_recording as shown in the status bar. -/
inductive StopStatus
  | noAudio
  | tooQuiet
  | tooLoud
  | saved
  | saveError
  deriving DecidableEq

/-- RecorderApp.stop_recording after the stream is closed: an empty capture
buffer short-circuits; otherwise the concatenated samples are validated by
RMS (reject below LEVEL_THRESHOLD_LOW or above LEVEL_THRESHOLD_HIGH), then
trimmed, normalized, written as the wav for the current index, appended to
the in-memory ledger and persisted by save_metadata (which rewrites
metadata.csv sorted), and the cursor advances by next_sentence.  The try
block has two filesystem raise sites, each modelled by a flag: writeRaises
is an exception at sf.write - the wav is not written and save_metadata is
never reached; metadataWriteRaises is an exception in the metadata.csv
rewrite inside save_metadata - at that point the wav IS written and
self.metadata.append has already run, so the appended row stays in the
in-memory ledger while metadata.csv gets no completed rewrite (recorded as
none; the aborted open/write may even leave a truncated file) and
next_sentence is never reached.  Both land in the same except branch that
shows the error box.  Result components: new app state, wav file written
(filename and samples), metadata.csv lines written, status. -/
noncomputable def stop_recording (s : AppState) (audio_data : List (List ℝ))
    (writeRaises metadataWriteRaises : Bool) :
    AppState × Option (String × List ℝ) × Option (List String) × StopStatus :=
  if audio_data.isEmpty then (s, none, none, .noAudio)
  else
    let audio := audio_data.flatten
    let rms := measRMS audio
    if rms < LEVEL_THRESHOLD_LOW then (s, none, none, .tooQuiet)
    else if rms > LEVEL_THRESHOLD_HIGH then (s, none, none, .tooLoud)
    else
      let processed :=
        normalize_audio (trim_silence audio SAMPLE_RATE SILENCE_THRESHOLD SILENCE_DURATION)
          TARGET_RMS
      let fn := filename s.index
      if writeRaises then (s, none, none, .saveError)
      else
        let md := save_metadata s.metadata fn (s.sentences.getD s.index "")
        if metadataWriteRaises then
          (AppState.mk s.sentences s.index md, some (fn, processed), none, .saveError)
        else
          (AppState.mk s.sentences
              (skip_to_next_unrecorded s.sentences.length md (s.index + 1)) md,
            some (fn, processed), some (persistLines md), .saved)

/-! ### Helper lemmas -/

theorem skipFrom_le_add (md : List (String × String)) :
    ∀ fuel i, skipFrom md fuel i ≤ i + fuel := by
  intro fuel
  induction fuel with
  | zero => intro i; simp [skipFrom]
  | succ n ih =>
    intro i
    by_cases h : is_recorded md i
    · calc skipFrom md (n + 1) i = skipFrom md n (i + 1) := by simp [skipFrom, h]
        _ ≤ i + 1 + n := ih (i + 1)
        _ = i + (n + 1) := by omega
    · simp [skipFrom, h]

theorem skip_to_next_unrecorded_le (n : ℕ) (md : List (String × String)) (i : ℕ)
    (h : i ≤ n) : skip_to_next_unrecorded n md i ≤ n := by
  have := skipFrom_le_add md (n - i) i
  unfold skip_to_next_unrecorded
  omega

theorem skip_to_next_unrecorded_of_ge (n : ℕ) (md : List (String × String)) (i : ℕ)
    (h : n ≤ i) : skip_to_next_unrecorded n md i = i := by
  unfold skip_to_next_unrecorded
  rw [Nat.sub_eq_zero_of_le h]
  rfl

theorem sorted_fst_sortLedger (md : List (String × String)) :
    List.Sorted (fun a b => a ≤ b) ((sortLedger md).map Prod.fst) := by
  have h := List.sorted_insertionSort ledgerLE md
  unfold List.Sorted at h ⊢
  rw [List.pairwise_map]
  exact h

theorem eraseIdx_eq_take_append_drop (l : List (String × String)) :
    ∀ i, l.eraseIdx i = l.take i ++ l.drop (i + 1) := by
  induction l with
  | nil => intro i; cases i <;> rfl
  | cons x xs ih =>
    intro i
    cases i with
    | zero => rfl
    | succ j => simpa [List.eraseIdx] using ih j

/-! ### Claims -/

/-- C1, counterexample: saving a recording whose deterministic filename
already has a ledger row does NOT replace the row.  Concretely, the save
sequence save "001.wav", then save "001.wav" again (the situation after
going back with previous and re-recording prompt 1) leaves TWO rows with
filename "001.wav" in the ledger, refuting "at most one row per filename". -/
theorem c1_counterexample :
    1 < ((save_metadata (save_metadata [] "001.wav" "Hello world.") "001.wav"
        "Hello world.").map Prod.fst).count "001.wav" := by
  decide

/-- C1, amended: save_metadata never replaces an existing row - it appends
unconditionally, so each save adds one more row for its filename (after
going back with previous and re-recording, the ledger holds duplicate rows
for that filename, the LAST of which carries the last prompt text saved). -/
theorem c1_amended (md : List (String × String)) (fn t : String) :
    save_metadata md fn t = md ++ [(fn, t)] ∧
    ((save_metadata md fn t).map Prod.fst).count fn =
      ((md.map Prod.fst).count fn) + 1 ∧
    (save_metadata md fn t).getLast? = some (fn, t) := by
  refine ⟨rfl, ?_, ?_⟩
  · simp [save_metadata]
  · simp [save_metadata]

/-- C2, counterexample: closing the review window does not re-run
skipToNextUnrecorded from the current cursor.  With the cursor sitting on
recorded prompt 1 (after an explicit previous) and the ledger containing
001.wav, closing review leaves the cursor at 0, while re-running
skip_to_next_unrecorded from 0 would give 1. -/
theorem c2_counterexample :
    (close_window (AppState.mk ["a", "b"] 0 [("001.wav", "a")])).1.index ≠
      skip_to_next_unrecorded 2 [("001.wav", "a")] 0 := by
  decide

/-- C2, amended: when the review window closes, the store only refreshes its
displayed view (recomputing the recorded count from the ledger the deletes
already pushed into app.metadata); the cursor is left unchanged and
skip_to_next_unrecorded is NOT re-run.  In the two-prompt scenario - cursor
at 0-based index 1, sole ledger entry 001.wav deleted in review - the
cursor stays at index 1, which coincides with what skip_to_next_unrecorded
from that cursor would return. -/
theorem c2_amended (app : AppState) :
    (close_window app).1 = app ∧
    (let app0 := AppState.mk ["Hello world", "Test two"] 1 [("001.wav", "Hello world")]
     let res := delete_audio app0 (openReview app0) true true false
     res.1.metadata = [] ∧ (close_window res.1).1.index = 1 ∧
       skip_to_next_unrecorded res.1.sentences.length res.1.metadata
         (close_window res.1).1.index = 1) :=
  ⟨rfl, by decide⟩

/-- C3, counterexample: play on an in-range entry whose backing audio file
is absent reports nothing at all - the operation silently falls through
(outcome noOp), it does not surface a FileMissing error to the caller. -/
theorem c3_counterexample :
    (play_audio (ReviewState.mk [("001.wav", "Hello world")] 0) false false).2 =
        PlayOutcome.noOp ∧
      PlayOutcome.noOp ≠ PlayOutcome.errorShown := by
  constructor
  · decide
  · decide

/-- C3, amended: for every play whose backing audio file is absent, the
operation is a silent no-op: no playback, no error reported, and the ledger
snapshot is left untouched (the missing file is surfaced only by the
display refresh of update_display, not by play itself). -/
theorem c3_amended (rs : ReviewState) (playRaises : Bool)
    (h : rs.index < rs.metadata.length) :
    play_audio rs false playRaises = (rs, PlayOutcome.noOp) := by
  simp [play_audio, h]

/-- C3 witness: the amended claim evaluated on a one-entry snapshot. -/
theorem c3_witness :
    play_audio (ReviewState.mk [("001.wav", "Hello world")] 0) false false =
      (ReviewState.mk [("001.wav", "Hello world")] 0, PlayOutcome.noOp) :=
  c3_amended (ReviewState.mk [("001.wav", "Hello world")] 0) false (by decide)

/-- C4, counterexample: a skip issued when the cursor is already at
promptCount pushes it past promptCount - there is no upper clamp.  With two
prompts and the cursor at 2, skip moves the cursor to 3 > 2. -/
theorem c4_counterexample :
    (AppState.mk ["a", "b"] 2 []).sentences.length <
      (skip_sentence (AppState.mk ["a", "b"] 2 [])).index := by
  decide

/-- C4, amended: previous clamps at 0, skip_to_next_unrecorded started at or
below promptCount never passes promptCount, and a forward move from a
cursor strictly below promptCount stays within [0, promptCount]; but a skip
issued when the cursor is already at (or past) promptCount increments it to
cursor + 1, leaving [0, promptCount]. -/
theorem c4_amended (s : AppState) :
    (previous_sentence s).index = s.index - 1 ∧
    (previous_sentence s).index ≤ s.index ∧
    (s.index < s.sentences.length →
      (next_sentence s).index ≤ s.sentences.length) ∧
    (s.sentences.length ≤ s.index → (next_sentence s).index = s.index + 1) ∧
    (s.index ≤ s.sentences.length →
      skip_to_next_unrecorded s.sentences.length s.metadata s.index ≤
        s.sentences.length) := by
  refine ⟨?_, ?_, ?_, ?_, ?_⟩
  · unfold previous_sentence
    split <;> simp_all
  · unfold previous_sentence
    split <;> simp_all
  · intro h
    exact skip_to_next_unrecorded_le _ _ _ (by omega)
  · intro h
    exact skip_to_next_unrecorded_of_ge _ _ _ (by omega)
  · intro h
    exact skip_to_next_unrecorded_le _ _ _ h

/-- C4 witness: the forward-move bound of the amended claim evaluated on a
one-prompt state with the cursor at 0. -/
theorem c4_witness :
    (next_sentence (AppState.mk ["a"] 0 [])).index ≤
      (AppState.mk ["a"] 0 []).sentences.length :=
  (c4_amended (AppState.mk ["a"] 0 [])).2.2.1 (by decide)

/-- C5: for a confirmed delete of an in-range entry - if removing the
backing file raises (an error other than not-found: the file exists and
os.remove fails), the whole delete aborts with the app state, the snapshot
and the persisted ledger all unchanged; if removal succeeds or the file was
already absent, exactly the one matching row (the row at the review cursor)
is removed from both the snapshot and app.metadata, and metadata.csv is
rewritten sorted by filename. -/
theorem c5_delete (app : AppState) (rs : ReviewState)
    (h : rs.index < rs.metadata.length) :
    delete_audio app rs true true true = (app, rs, none) ∧
    (∀ fe rr : Bool, (fe && rr) = false →
      (delete_audio app rs true fe rr).1.metadata = rs.metadata.eraseIdx rs.index ∧
      (delete_audio app rs true fe rr).2.1.metadata = rs.metadata.eraseIdx rs.index ∧
      (delete_audio app rs true fe rr).2.2 =
        some (persistLines (rs.metadata.eraseIdx rs.index))) ∧
    (rs.metadata.eraseIdx rs.index).length + 1 = rs.metadata.length ∧
    rs.metadata.eraseIdx rs.index =
      rs.metadata.take rs.index ++ rs.metadata.drop (rs.index + 1) ∧
    List.Sorted (fun a b => a ≤ b)
      ((sortLedger (rs.metadata.eraseIdx rs.index)).map Prod.fst) := by
  refine ⟨?_, ?_, ?_, ?_, ?_⟩
  · simp [delete_audio, h]
  · intro fe rr hfr
    simp [delete_audio, h, hfr]
  · have := List.length_eraseIdx_add_one h
    omega
  · exact eraseIdx_eq_take_append_drop rs.metadata rs.index
  · exact sorted_fst_sortLedger _

/-- C5 witness: the abort branch of the delete claim evaluated on a
one-entry snapshot whose file removal raises. -/
theorem c5_witness :
    delete_audio (AppState.mk ["Hello world"] 0 [("001.wav", "Hello world")])
        (ReviewState.mk [("001.wav", "Hello world")] 0) true true true =
      (AppState.mk ["Hello world"] 0 [("001.wav", "Hello world")],
        ReviewState.mk [("001.wav", "Hello world")] 0, none) :=
  (c5_delete (AppState.mk ["Hello world"] 0 [("001.wav", "Hello world")])
    (ReviewState.mk [("001.wav", "Hello world")] 0) (by decide)).1

/-- C9: after every operation that persists the ledger - every save and
every delete - the rows written to metadata.csv are in ascending filename
order (each persisted line is the row's filename followed by the separator
and its prompt text, in this row order), regardless of insertion order. -/
theorem c9_sorted (md : List (String × String)) (fn t : String) (i : ℕ) :
    List.Sorted (fun a b => a ≤ b)
        ((sortLedger (save_metadata md fn t)).map Prod.fst) ∧
      persistLines (save_metadata md fn t) =
        (sortLedger (save_metadata md fn t)).map (fun e => e.1 ++ "|" ++ e.2) ∧
    List.Sorted (fun a b => a ≤ b)
        ((sortLedger (md.eraseIdx i)).map Prod.fst) ∧
      persistLines (md.eraseIdx i) =
        (sortLedger (md.eraseIdx i)).map (fun e => e.1 ++ "|" ++ e.2) :=
  ⟨sorted_fst_sortLedger _, rfl, sorted_fst_sortLedger _, rfl⟩

theorem peakAmp_nil : peakAmp [] = 0 := rfl

theorem peakAmp_cons (x : ℝ) (l : List ℝ) :
    peakAmp (x :: l) = max |x| (peakAmp l) := rfl

theorem peakAmp_map_mul (l : List ℝ) (c : ℝ) (hc : 0 ≤ c) :
    peakAmp (l.map (fun x => x * c)) = peakAmp l * c := by
  induction l with
  | nil => simp [peakAmp]
  | cons x xs ih =>
    rw [List.map_cons, peakAmp_cons, peakAmp_cons, ih,
      max_mul_of_nonneg _ _ hc, abs_mul, abs_of_nonneg hc]

theorem measRMS_nonneg (l : List ℝ) : 0 ≤ measRMS l :=
  Real.sqrt_nonneg _

theorem measRMS_of_all_zero (l : List ℝ) (hz : ∀ x ∈ l, x = 0) :
    measRMS l = 0 := by
  have hm : meanSq l = 0 := by
    unfold meanSq
    rw [List.sum_eq_zero, zero_div]
    intro y hy
    rcases List.mem_map.mp hy with ⟨x, hx, rfl⟩
    rw [hz x hx]
    ring
  unfold measRMS
  rw [hm, Real.sqrt_zero]

/-- C7: normalize_audio is the reference normalize - when the RMS is 0 (in
particular on an all-zero sequence) the input comes back unchanged;
otherwise the result is the input scaled by targetRMS / rms, further
rescaled by 0.95 / peak when the scaled peak exceeds 0.95, in which case
the output peak amplitude is at most 0.95; the length is always
preserved. -/
theorem c7_normalize (l : List ℝ) (t : ℝ) :
    (measRMS l = 0 → normalize_audio l t = l) ∧
    ((∀ x ∈ l, x = 0) → normalize_audio l t = l) ∧
    (measRMS l ≠ 0 →
      (peakAmp (l.map (fun x => x * (t / measRMS l))) ≤ 0.95 →
          normalize_audio l t = l.map (fun x => x * (t / measRMS l))) ∧
      (0.95 < peakAmp (l.map (fun x => x * (t / measRMS l))) →
          normalize_audio l t =
            (l.map (fun x => x * (t / measRMS l))).map
              (fun x => x * (0.95 / peakAmp (l.map (fun y => y * (t / measRMS l))))) ∧
          peakAmp (normalize_audio l t) ≤ 0.95)) ∧
    (normalize_audio l t).length = l.length := by
  refine ⟨?_, ?_, ?_, ?_⟩
  · intro h0
    simp [normalize_audio, h0]
  · intro hz
    simp [normalize_audio, measRMS_of_all_zero l hz]
  · intro hne
    have hpos : measRMS l > 0 := lt_of_le_of_ne (measRMS_nonneg l) (Ne.symm hne)
    constructor
    · intro hpk
      simp [normalize_audio, hpos, not_lt.mpr hpk]
    · intro hpk
      have heq : normalize_audio l t =
          (l.map (fun x => x * (t / measRMS l))).map
            (fun x => x * (0.95 / peakAmp (l.map (fun y => y * (t / measRMS l))))) := by
        simp [normalize_audio, hpos, hpk]
      refine ⟨heq, ?_⟩
      have hppos : (0 : ℝ) < peakAmp (l.map (fun x => x * (t / measRMS l))) := by
        linarith
      rw [heq, peakAmp_map_mul _ _ (by positivity),
        mul_div_cancel₀ _ (ne_of_gt hppos)]
  · unfold normalize_audio
    by_cases hpos : measRMS l > 0
    · simp only [hpos, if_true]
      split <;> simp
    · simp [hpos]

/-- C7 witness: normalizing the all-zero one-sample sequence returns it
unchanged (its RMS is 0). -/
theorem c7_witness : normalize_audio [0] (0.15 : ℝ) = [0] :=
  (c7_normalize [0] 0.15).1 (by norm_num [measRMS, meanSq])

theorem smoothedAmp_length (audio : List ℝ) :
    (smoothedAmp audio).length = audio.length := by
  simp only [smoothedAmp]
  split
  · simp [movingAvgSame]
  · simp

theorem firstIdxGT_eq_none (threshold : ℝ) (l : List ℝ)
    (h : ∀ x ∈ l, ¬ threshold < x) : firstIdxGT threshold l = none := by
  induction l with
  | nil => rfl
  | cons x xs ih =>
    have hx : ¬ threshold < x := h x (List.mem_cons_self x xs)
    rw [firstIdxGT, if_neg hx, ih]
    · rfl
    · intro y hy
      exact h y (List.mem_cons_of_mem x hy)

/-- C8: trim_silence returns its input unchanged both when the smoothed
absolute amplitude never exceeds the threshold, and whenever the detected
span (first exceedance minus the 50 ms pre-roll through last exceedance
plus the 50 ms pad, both clamped) is shorter than duration * sample_rate
frames. -/
theorem c8_trim (audio : List ℝ) (sample_rate : ℕ) (threshold : ℝ) (duration : ℚ) :
    ((∀ x ∈ smoothedAmp audio, ¬ threshold < x) →
        trim_silence audio sample_rate threshold duration = audio) ∧
    (endIdx audio sample_rate threshold - startIdx audio sample_rate threshold <
        minFrames duration sample_rate →
      trim_silence audio sample_rate threshold duration = audio) := by
  constructor
  · intro h
    have hf : firstIdxGT threshold (smoothedAmp audio) = none :=
      firstIdxGT_eq_none threshold _ h
    have hl : lastIdxGT threshold (smoothedAmp audio) = none := by
      unfold lastIdxGT
      rw [firstIdxGT_eq_none]
      · rfl
      · intro x hx
        exact h x (List.mem_reverse.mp hx)
    have hs : startIdx audio sample_rate threshold = 0 := by
      unfold startIdx
      rw [hf]
    have he : endIdx audio sample_rate threshold = audio.length := by
      unfold endIdx
      rw [hl, smoothedAmp_length]
    simp only [trim_silence, hs, he]
    split
    · rfl
    · simp
  · intro h
    simp only [trim_silence]
    rw [if_pos h]

/-- C8 witness: a one-sample buffer at amplitude 0.005 never exceeds the
0.01 silence threshold after smoothing, so trim_silence returns it
unchanged. -/
theorem c8_witness :
    trim_silence [(0.005 : ℝ)] SAMPLE_RATE SILENCE_THRESHOLD SILENCE_DURATION =
      [(0.005 : ℝ)] := by
  refine (c8_trim [(0.005 : ℝ)] SAMPLE_RATE SILENCE_THRESHOLD SILENCE_DURATION).1 ?_
  intro x hx
  have hsm : smoothedAmp [(0.005 : ℝ)] = [|(0.005 : ℝ)|] := by
    unfold smoothedAmp
    norm_num
  rw [hsm, List.mem_singleton] at hx
  subst hx
  rw [abs_of_nonneg (by norm_num)]
  unfold SILENCE_THRESHOLD
  norm_num

/-- C10: stopping a capture during which no audio blocks were delivered
performs no validation, writes no wav file, rewrites no metadata, leaves
the ledger and the cursor unchanged, and reports the no-audio status
message instead of raising. -/
theorem c10_empty_stop (s : AppState) (writeRaises metadataWriteRaises : Bool) :
    stop_recording s [] writeRaises metadataWriteRaises =
      (s, none, none, StopStatus.noAudio) := by
  simp [stop_recording]

end Recording
